import Mathlib

/-!
Verification of the discriminated-union ("one-of") derivation of
`poem-openapi-derive` (`src/poem-openapi-derive/src/oneof.rs`).

The derive macro `generate` emits, for an enum whose variants each wrap a
single payload type, three artifacts:
  * a `Type` impl — `name()`, `schema_ref()` (the discriminated `oneOf`
    schema) and `register(registry)`;
  * a `ParseFromJSON` impl — `parse_from_json`, the decoder driven by the
    discriminator property;
  * a `ToJSON` impl — `to_json`, the encoder that injects the discriminator.

We embed the *generated* code shallowly: each payload type is an abstract
record of the operations the generated code calls on it (`name`,
`schema_ref`, `register`, `parse_from_json`, `to_json`), the enum value is a
pair of a variant index and a payload value, and the generated match arms
become recursion over the declared variant list.
-/

namespace OneOf

/-- Rust's `serde_json::Value`. Numbers are modelled as integers; none of the
derivation logic inspects numeric values. Objects are association lists
(serde's `Map` keyed by strings; `getKey`/`insertKey` below model its
`get`/`insert`). -/
inductive Json where
  | null
  | bool (b : Bool)
  | num (n : Int)
  | str (s : String)
  | arr (items : List Json)
  | obj (fields : List (String × Json))

/-- Rust's `Value::as_object` — `some` exactly on JSON objects. -/
def Json.asObject : Json → Option (List (String × Json))
  | .obj fields => some fields
  | _ => none

/-- Rust's `serde_json::Map::get`: the value at `key`, if present. -/
def getKey : List (String × Json) → String → Option Json
  | [], _ => none
  | (k, v) :: rest, key => if k = key then some v else getKey rest key

/-- Rust's `serde_json::Map::insert`: replace the value at `key` if present,
otherwise add the binding. -/
def insertKey : List (String × Json) → String → Json → List (String × Json)
  | [], key, val => [(key, val)]
  | (k, v) :: rest, key, val =>
    if k = key then (k, val) :: rest else (k, v) :: insertKey rest key val

/-- The guard `property_name == #mapping_name` of the generated decoder
compares a `serde_json::Value` with a `&str`: it is true exactly when the
value is a JSON string equal to that string. -/
def matchesTag (pv : Json) (tag : String) : Bool :=
  match pv with
  | .str s => s = tag
  | _ => false

/-- Poem's `poem_openapi::types::ParseError`, untyped. `expected_type(value)`
records the offending JSON value; every other error of a payload decoder is
collapsed into `custom`. -/
inductive ParseError where
  | expectedType (value : Json)
  | custom (message : String)

/-- Poem's `ParseError::propagate` re-types a payload's error without changing its
content; on the untyped model it is the identity. -/
def ParseError.propagate : ParseError → ParseError := id

/-- Poem's `poem_openapi::registry::MetaDiscriminatorObject`. -/
structure MetaDiscriminatorObject where
  property_name : String
  mapping : List (String × String)

mutual
/-- Poem's `poem_openapi::registry::MetaSchemaRef`: a named reference or an inline
schema. -/
inductive MetaSchemaRef where
  | Reference (name : String)
  | Inline (schema : MetaSchema)

/-- Poem's `poem_openapi::registry::MetaSchema`, restricted to the fields the
one-of derivation writes: `ty`, `title`, `description`, `external_docs`,
`one_of`, `properties`, `enum_items` and `discriminator`. -/
inductive MetaSchema where
  | mk (ty : String) (title : Option String) (description : Option String)
      (external_docs : Option String) (one_of : List MetaSchemaRef)
      (properties : List (String × MetaSchemaRef)) (enum_items : List Json)
      (discriminator : Option MetaDiscriminatorObject)
end

def MetaSchema.ty : MetaSchema → String
  | .mk ty _ _ _ _ _ _ _ => ty

def MetaSchema.title : MetaSchema → Option String
  | .mk _ title _ _ _ _ _ _ => title

def MetaSchema.description : MetaSchema → Option String
  | .mk _ _ description _ _ _ _ _ => description

def MetaSchema.external_docs : MetaSchema → Option String
  | .mk _ _ _ docs _ _ _ _ => docs

def MetaSchema.one_of : MetaSchema → List MetaSchemaRef
  | .mk _ _ _ _ one_of _ _ _ => one_of

def MetaSchema.properties : MetaSchema → List (String × MetaSchemaRef)
  | .mk _ _ _ _ _ properties _ _ => properties

def MetaSchema.enum_items : MetaSchema → List Json
  | .mk _ _ _ _ _ _ enum_items _ => enum_items

def MetaSchema.discriminator : MetaSchema → Option MetaDiscriminatorObject
  | .mk _ _ _ _ _ _ _ discriminator => discriminator

/-- Poem's `MetaSchema::new(ty)`: every other field at its default. -/
def MetaSchema.new (ty : String) : MetaSchema :=
  .mk ty none none none [] [] [] none

/-- Poem's `MetaSchemaRef::unwrap_reference` panics on an inline schema; the
fallible call is modelled as an `Option`. -/
def MetaSchemaRef.unwrap_reference : MetaSchemaRef → Option String
  | .Reference name => some name
  | .Inline _ => none

/-- The schema registry, reduced to the set of component names registered so
far (poem's `Registry` deduplicates by name; only membership matters here). -/
abbrev Registry := List String

/-- The payload-type interface the generated code dispatches through: the
`Type`, `ParseFromJSON` and `ToJSON` operations of one variant's single
field type, with payload values drawn from a common carrier type `α`. -/
structure TypeImpl (α : Type) where
  name : String
  schema_ref : MetaSchemaRef
  register : Registry → Registry
  parse_from_json : Json → Except ParseError α
  to_json : α → Json

/-- One declared variant (`OneOfItem` of `oneof.rs`): its name, its single
payload type (the derive rejects variants whose field count differs from
one before any code is generated, so the shape is built in), and the
optional `#[oai(mapping = "...")]` explicit discriminator tag. -/
structure OneOfItem (α : Type) where
  ident : String
  payload : TypeImpl α
  mapping : Option String

/-- The whole declaration (`OneOfArgs` of `oneof.rs`): enum name, doc-derived
title/description, the mandatory `property_name`, optional external docs, and
the variants in declaration order. -/
structure OneOfArgs (α : Type) where
  ident : String
  title : Option String
  description : Option String
  property_name : String
  external_docs : Option String
  variants : List (OneOfItem α)

/-- A value of the derived enum: which variant is active (by declaration
position) and its payload. -/
abbrev UnionValue (α : Type) := Nat × α

/-- The `mapping_name` expression (oneof.rs:66-71): the explicit `mapping` string if given,
otherwise the payload type's `name()`. -/
def mapping_name (variant : OneOfItem α) : String :=
  match variant.mapping with
  | some mapping => mapping
  | none => variant.payload.name

/-- The `names` vector (oneof.rs:88): one `mapping_name` pushed per variant,
in declaration order. -/
def names (variants : List (OneOfItem α)) : List String :=
  variants.map mapping_name

/-- The decoder's match arms (oneof.rs:74-78 as instantiated at
oneof.rs:157-160): scan the variants in declaration order against the
discriminator value; the first arm whose guard
`property_name == #mapping_name` holds parses the whole `value` with its
payload type and wraps the result in that variant's constructor (here: the
variant's declaration index, offset by `idx`). The trailing `_` arm fails
with `expected_type(value)`. -/
def from_json_arms (variants : List (OneOfItem α)) (idx : Nat) (pv : Json)
    (value : Json) : Except ParseError (UnionValue α) :=
  match variants with
  | [] => .error (.expectedType value)
  | variant :: rest =>
    if matchesTag pv (mapping_name variant) then
      ((variant.payload.parse_from_json value).map
        (fun x => (idx, x))).mapError ParseError.propagate
    else
      from_json_arms rest (idx + 1) pv value

/-- The generated `ParseFromJSON::parse_from_json` (oneof.rs:155-162):
`value.as_object().and_then(|obj| obj.get(property_name))`, then the arms. -/
def parse_from_json (args : OneOfArgs α) (value : Json) :
    Except ParseError (UnionValue α) :=
  match value.asObject.bind (fun obj => getKey obj args.property_name) with
  | some pv => from_json_arms args.variants 0 pv value
  | none => .error (.expectedType value)

/-- One encoder arm (oneof.rs:79-87): encode the payload; if the result is
an object, insert the discriminator property with the variant's
`mapping_name` as a JSON string, else return the payload's JSON unchanged. -/
def to_json_arm (property_name : String) (variant : OneOfItem α) (obj : α) :
    Json :=
  let value := variant.payload.to_json obj
  match value.asObject with
  | some fields =>
    .obj (insertKey fields property_name (.str (mapping_name variant)))
  | none => value

/-- The generated `ToJSON::to_json` (oneof.rs:164-170): the match over the
enum's constructors selects the active variant's arm. -/
def to_json_arms (property_name : String) :
    List (OneOfItem α) → Nat → α → Json
  | [], _, _ => .null
  | variant :: _, 0, obj => to_json_arm property_name variant obj
  | _ :: rest, i + 1, obj => to_json_arms property_name rest i obj

/-- The generated `ToJSON::to_json` applied to a union value. An enum value always names one of
the declared constructors, so the index of a well-formed value is always in
range; the out-of-range leg of `to_json_arms` is unreachable then. -/
def to_json (args : OneOfArgs α) (value : UnionValue α) : Json :=
  to_json_arms args.property_name args.variants value.1 value.2

/-- The generated `Type::name` (oneof.rs:120-122): the constant `"object"`. -/
def type_name (_args : OneOfArgs α) : String := "object"

/-- The `mapping` vector (oneof.rs:90-94): for each variant with an explicit
`mapping` tag, in declaration order, the pair of its `mapping_name` and
`"#/components/schemas/" + schema_ref().unwrap_reference()`. A variant
without an explicit tag pushes nothing. `unwrap_reference` panics on an
inline payload schema, so the construction is `Option`-valued. -/
def mapping_entries : List (OneOfItem α) → Option (List (String × String))
  | [] => some []
  | variant :: rest =>
    match variant.mapping with
    | some _ =>
      (variant.payload.schema_ref.unwrap_reference).bind fun reference =>
        (mapping_entries rest).map fun tail =>
          (mapping_name variant, "#/components/schemas/" ++ reference) :: tail
    | none => mapping_entries rest

/-- The pair the `mapping` vector holds for one variant, when it holds one:
only explicit-tag variants with a payload schema that is a named reference
contribute. -/
def mapping_entry (variant : OneOfItem α) : Option (String × String) :=
  match variant.mapping, variant.payload.schema_ref with
  | some _, .Reference reference =>
    some (mapping_name variant, "#/components/schemas/" ++ reference)
  | _, _ => none

/-- The `MetaSchema` built by the generated `Type::schema_ref`
(oneof.rs:124-140): `MetaSchema::new("object")` with title, description,
external docs, `one_of` (each variant's payload `schema_ref()` in order),
a single property — the discriminator property, an inline string schema
enumerating the `names` — and the discriminator object. `None` when a
mapping entry's `unwrap_reference` panics. -/
def oneof_schema (args : OneOfArgs α) : Option MetaSchema :=
  (mapping_entries args.variants).map fun mapping =>
    .mk ("object") args.title args.description args.external_docs
      (args.variants.map (fun variant => variant.payload.schema_ref))
      [(args.property_name,
        .Inline (.mk ("string") none none none [] []
          ((names args.variants).map Json.str) none))]
      []
      (some { property_name := args.property_name, mapping := mapping })

/-- The generated `Type::schema_ref` (oneof.rs:124-140): always an `Inline`
wrapping of `oneof_schema`. -/
def schema_ref (args : OneOfArgs α) : Option MetaSchemaRef :=
  (oneof_schema args).map MetaSchemaRef.Inline

/-- The generated `Type::register` (oneof.rs:142-144): call `register` on
every variant's payload type, in declaration order. -/
def register (args : OneOfArgs α) (registry : Registry) : Registry :=
  args.variants.foldl (fun registry variant => variant.payload.register registry)
    registry

/-! ### Concrete payload types and declarations used as inputs -/

/-- A payload type in the style of a derived `Object` with one field
`side`: its decoder reads `side` out of the (possibly larger) object and
ignores every other property, its encoder emits `{"side": ...}` back. -/
def fieldPayload (name : String) (field : String) : TypeImpl Json :=
  { name := name
    schema_ref := .Reference name
    register := fun registry =>
      if name ∈ registry then registry else name :: registry
    parse_from_json := fun value =>
      match value.asObject.bind (fun fields => getKey fields field) with
      | some inner => .ok (.obj [(field, inner)])
      | none => .error (.expectedType value)
    to_json := fun v => v }

/-- A payload type whose encoder yields the non-object JSON string
`"x"` and whose decoder accepts exactly that string, returning `null`: it
round-trips at the payload value `null`. -/
def strPayload : TypeImpl Json :=
  { name := "Str"
    schema_ref := .Reference ("Str")
    register := fun registry => registry
    parse_from_json := fun value =>
      match value with
      | .str s => if s = "x" then .ok .null else .error (.custom ("not the string x"))
      | _ => .error (.custom ("not the string x"))
    to_json := fun _ => .str ("x") }

def circleItem : OneOfItem Json :=
  { ident := "Circle", payload := fieldPayload ("CircleData") ("radius"),
    mapping := none }

def squareItem : OneOfItem Json :=
  { ident := "Square", payload := fieldPayload ("SquareData") ("side"),
    mapping := some ("sq") }

/-- The spec's scenario: `Shape { Circle(CircleData), "sq" -> Square(SquareData) }`
with discriminator property `"type"`. -/
def argsA : OneOfArgs Json :=
  { ident := "Shape", title := none, description := none,
    property_name := "type", external_docs := none,
    variants := [circleItem, squareItem] }

def strItem : OneOfItem Json :=
  { ident := "S", payload := strPayload, mapping := none }

/-- A one-variant union whose payload encodes to a non-object. -/
def argsStr : OneOfArgs Json :=
  { ident := "Wrap", title := none, description := none,
    property_name := "type", external_docs := none,
    variants := [strItem] }

/-- Two variants with the same explicit tag `"T"`. -/
def argsDup : OneOfArgs Json :=
  { ident := "Dup", title := none, description := none,
    property_name := "type", external_docs := none,
    variants :=
      [{ ident := "A", payload := fieldPayload ("AData") ("a"), mapping := some ("T") },
       { ident := "B", payload := fieldPayload ("BData") ("b"), mapping := some ("T") }] }

/-- The schema the scenario declaration produces. -/
def exSchemaA : MetaSchema := (oneof_schema argsA).getD (MetaSchema.new ("object"))

/-- The schema the duplicate-tag declaration produces. -/
def exSchemaDup : MetaSchema := (oneof_schema argsDup).getD (MetaSchema.new ("object"))

/-- The derived union itself, packaged behind the payload-type interface so
it can appear as another union's variant payload (its `name()` is the
constant `"object"`; `ref` is the `Inline` schema its `schema_ref()`
produced). -/
def unionPayloadOf (args : OneOfArgs α) (ref : MetaSchemaRef) :
    TypeImpl (UnionValue α) :=
  { name := type_name args
    schema_ref := ref
    register := register args
    parse_from_json := parse_from_json args
    to_json := to_json args }

/-! ### Helper lemmas -/

theorem getKey_insertKey (fields : List (String × Json)) (key : String)
    (val : Json) : getKey (insertKey fields key val) key = some val := by
  induction fields with
  | nil => simp [insertKey, getKey]
  | cons head rest ih =>
    obtain ⟨k, v⟩ := head
    by_cases hk : k = key
    · simp [insertKey, getKey, hk]
    · simp [insertKey, getKey, hk, ih]

theorem mapError_propagate (e : Except ParseError β) :
    e.mapError ParseError.propagate = e := by
  cases e <;> rfl

theorem to_json_arms_get (property_name : String)
    (variants : List (OneOfItem α)) (i : Nat) (variant : OneOfItem α)
    (obj : α) (h : variants[i]? = some variant) :
    to_json_arms property_name variants i obj =
      to_json_arm property_name variant obj := by
  induction variants generalizing i with
  | nil => simp at h
  | cons head rest ih =>
    cases i with
    | zero => simp at h; subst h; rfl
    | succ i => exact ih i (by simpa using h)

theorem from_json_arms_first (variants : List (OneOfItem α)) (idx i : Nat)
    (variant : OneOfItem α) (pv value : Json)
    (hget : variants[i]? = some variant)
    (hmatch : matchesTag pv (mapping_name variant) = true)
    (hprior : ∀ j vj, j < i → variants[j]? = some vj →
      matchesTag pv (mapping_name vj) = false) :
    from_json_arms variants idx pv value =
      ((variant.payload.parse_from_json value).map
        (fun x => (idx + i, x))).mapError ParseError.propagate := by
  induction variants generalizing idx i with
  | nil => simp at hget
  | cons head rest ih =>
    cases i with
    | zero =>
      simp at hget
      subst hget
      simp [from_json_arms, hmatch]
    | succ i =>
      have hhead : matchesTag pv (mapping_name head) = false :=
        hprior 0 head (Nat.succ_pos i) (by simp)
      have hrest := ih (idx + 1) i (by simpa using hget)
        (fun j vj hj hv => hprior (j + 1) vj (Nat.succ_lt_succ hj) (by simpa using hv))
      rw [from_json_arms, hhead]
      simp only [Bool.false_eq_true, if_false]
      rw [hrest]
      have : idx + 1 + i = idx + (i + 1) := by omega
      rw [this]

theorem from_json_arms_nomatch (variants : List (OneOfItem α)) (idx : Nat)
    (pv value : Json)
    (h : ∀ variant ∈ variants, matchesTag pv (mapping_name variant) = false) :
    from_json_arms variants idx pv value = .error (.expectedType value) := by
  induction variants generalizing idx with
  | nil => rfl
  | cons head rest ih =>
    have hhead := h head (List.mem_cons_self _ _)
    rw [from_json_arms, hhead]
    simp only [Bool.false_eq_true, if_false]
    exact ih (idx + 1) (fun v hv => h v (List.mem_cons_of_mem _ hv))

theorem from_json_arms_delegates (variants : List (OneOfItem α)) (idx : Nat)
    (pv value : Json)
    (h : ∃ variant ∈ variants, matchesTag pv (mapping_name variant) = true) :
    ∃ (i : Nat) (variant : OneOfItem α), variants[i]? = some variant ∧
      from_json_arms variants idx pv value =
        ((variant.payload.parse_from_json value).map
          (fun x => (idx + i, x))).mapError ParseError.propagate := by
  induction variants generalizing idx with
  | nil => simp at h
  | cons head rest ih =>
    by_cases hhead : matchesTag pv (mapping_name head) = true
    · exact ⟨0, head, by simp, by simp [from_json_arms, hhead]⟩
    · have hh : matchesTag pv (mapping_name head) = false := by
        simpa using hhead
      obtain ⟨v, hv, hm⟩ := h
      rcases List.mem_cons.mp hv with rfl | hv
      · exact absurd hm hhead
      · obtain ⟨i, variant, hget, heq⟩ := ih (idx + 1) ⟨v, hv, hm⟩
        refine ⟨i + 1, variant, by simpa using hget, ?_⟩
        rw [from_json_arms, hh]
        simp only [Bool.false_eq_true, if_false]
        rw [heq]
        have : idx + 1 + i = idx + (i + 1) := by omega
        rw [this]

theorem mapping_entries_eq (variants : List (OneOfItem α))
    (entries : List (String × String))
    (h : mapping_entries variants = some entries) :
    entries = variants.filterMap mapping_entry := by
  induction variants generalizing entries with
  | nil => simp [mapping_entries] at h; simp [h]
  | cons head rest ih =>
    rw [mapping_entries] at h
    rcases hm : head.mapping with _ | tag
    · rw [hm] at h
      simpa [List.filterMap_cons, mapping_entry, hm] using ih entries h
    · rw [hm] at h
      rcases hr : head.payload.schema_ref with reference | schema
      · rw [hr] at h
        simp only [MetaSchemaRef.unwrap_reference, Option.bind_some] at h
        rcases htail : mapping_entries rest with _ | tail
        · rw [htail] at h; simp at h
        · rw [htail] at h
          simp only [Option.map_some', Option.some_bind, Option.some.injEq] at h
          simp [← h, List.filterMap_cons, mapping_entry, hm, hr, ih tail htail]
      · rw [hr] at h
        simp [MetaSchemaRef.unwrap_reference] at h

theorem mapping_entries_none (variants : List (OneOfItem α))
    (variant : OneOfItem α) (hmem : variant ∈ variants)
    (hexp : variant.mapping.isSome = true)
    (hinline : variant.payload.schema_ref.unwrap_reference = none) :
    mapping_entries variants = none := by
  induction variants with
  | nil => simp at hmem
  | cons head rest ih =>
    rcases List.mem_cons.mp hmem with rfl | hmem
    · obtain ⟨tag, htag⟩ := Option.isSome_iff_exists.mp hexp
      rw [mapping_entries, htag, hinline]
      rfl
    · rw [mapping_entries]
      rcases hm : head.mapping with _ | tag
      · exact ih hmem
      · rcases hr : head.payload.schema_ref.unwrap_reference with _ | reference
        · rfl
        · rw [ih hmem]
          rfl

theorem register_foldl_map (fs : List (OneOfItem α)) (registry : Registry) :
    fs.foldl (fun registry variant => variant.payload.register registry) registry =
      List.foldl (fun registry f => f registry) registry
        (fs.map (fun variant => variant.payload.register)) := by
  induction fs generalizing registry with
  | nil => rfl
  | cons head rest ih => simpa using ih (head.payload.register registry)

theorem register_frame (variants : List (OneOfItem α)) (registry : Registry)
    (name : String)
    (h : ∀ variant ∈ variants, ∀ r : Registry,
      name ∈ variant.payload.register r ↔ name ∈ r) :
    (name ∈ variants.foldl
        (fun registry variant => variant.payload.register registry) registry ↔
      name ∈ registry) := by
  induction variants generalizing registry with
  | nil => rfl
  | cons head rest ih =>
    rw [List.foldl_cons]
    rw [ih (head.payload.register registry)
      (fun v hv => h v (List.mem_cons_of_mem _ hv))]
    exact h head (List.mem_cons_self _ _) registry

/-! ### The documented scenario, evaluated

`Shape { Circle(CircleData), "sq" -> Square(SquareData) }` with
discriminator property `"type"`. -/

theorem scenario_encode_circle :
    to_json argsA (0, Json.obj [("radius", Json.num 2)]) =
      Json.obj [("radius", Json.num 2), ("type", Json.str ("Circle" ++ "Data"))] := rfl

theorem scenario_encode_square :
    to_json argsA (1, Json.obj [("side", Json.num 3)]) =
      Json.obj [("side", Json.num 3), ("type", Json.str ("sq"))] := rfl

theorem scenario_decode_square :
    parse_from_json argsA (Json.obj [("type", Json.str ("sq")), ("side", Json.num 3)]) =
      .ok (1, Json.obj [("side", Json.num 3)]) := rfl

theorem scenario_decode_circle :
    parse_from_json argsA
        (Json.obj [("type", Json.str ("Circle" ++ "Data")), ("radius", Json.num 2)]) =
      .ok (0, Json.obj [("radius", Json.num 2)]) := rfl

theorem scenario_decode_unknown :
    parse_from_json argsA (Json.obj [("type", Json.str ("triangle"))]) =
      .error (.expectedType (Json.obj [("type", Json.str ("triangle"))])) := rfl

theorem scenario_mapping_only_sq :
    exSchemaA.discriminator =
      some { property_name := "type",
             mapping := [("sq", "#/components/schemas/SquareData")] } := rfl

/-! ### The claims -/

/-- C5: a case without an explicit tag resolves its tag to the payload
type's `name()`; a case with explicit tag `t` resolves to `t` regardless of
the payload name. The one resolved tag (`mapping_name`) is what the
discriminator property's string enum lists, what each decoder guard
compares the discriminator value against, and what the encoder injects. -/
theorem resolved_tag_single_source (args : OneOfArgs α) :
    (∀ variant ∈ args.variants,
      (variant.mapping = none → mapping_name variant = variant.payload.name) ∧
      (∀ t, variant.mapping = some t → mapping_name variant = t)) ∧
    (∀ s, oneof_schema args = some s →
      s.properties = [(args.property_name,
        .Inline (.mk ("string") none none none [] []
          (args.variants.map (fun variant => Json.str (mapping_name variant)))
          none))]) ∧
    (∀ (variant : OneOfItem α) (rest : List (OneOfItem α)) (idx : Nat)
        (pv value : Json),
      (matchesTag pv (mapping_name variant) = true →
        from_json_arms (variant :: rest) idx pv value =
          ((variant.payload.parse_from_json value).map
            (fun x => (idx, x))).mapError ParseError.propagate) ∧
      (matchesTag pv (mapping_name variant) = false →
        from_json_arms (variant :: rest) idx pv value =
          from_json_arms rest (idx + 1) pv value)) ∧
    (∀ (i : Nat) (variant : OneOfItem α) (v : α) (fields : List (String × Json)),
      args.variants[i]? = some variant →
      (variant.payload.to_json v).asObject = some fields →
      to_json args (i, v) =
        .obj (insertKey fields args.property_name
          (.str (mapping_name variant)))) := by
  refine ⟨?_, ?_, ?_, ?_⟩
  · intro variant _
    exact ⟨fun h => by simp [mapping_name, h], fun t h => by simp [mapping_name, h]⟩
  · intro s hs
    obtain ⟨mapping, hmap, rfl⟩ := Option.map_eq_some'.mp hs
    simp [MetaSchema.properties, names, List.map_map, Function.comp]
  · intro variant rest idx pv value
    exact ⟨fun h => by simp [from_json_arms, h], fun h => by simp [from_json_arms, h]⟩
  · intro i variant v fields hvar hobj
    rw [to_json, to_json_arms_get args.property_name args.variants i variant v hvar]
    simp [to_json_arm, hobj]

/-- C5 at the scenario: the implicit case resolves to the payload type name,
the explicit case to its declared tag. -/
theorem resolved_tag_witness :
    mapping_name circleItem = "CircleData" ∧ mapping_name squareItem = "sq" :=
  ⟨((resolved_tag_single_source argsA).1 circleItem (by simp [argsA])).1 rfl,
   ((resolved_tag_single_source argsA).1 squareItem (by simp [argsA])).2 ("sq") rfl⟩

/-- C2 (amended): for every union value whose active case's payload encoder
returns a JSON object, `to_json` returns an object containing the
discriminator property with that case's resolved tag as a JSON string. -/
theorem discriminator_presence (args : OneOfArgs α) (i : Nat)
    (variant : OneOfItem α) (v : α) (fields : List (String × Json))
    (hvar : args.variants[i]? = some variant)
    (hobj : (variant.payload.to_json v).asObject = some fields) :
    ∃ out, to_json args (i, v) = .obj out ∧
      getKey out args.property_name = some (.str (mapping_name variant)) := by
  refine ⟨insertKey fields args.property_name (.str (mapping_name variant)),
    ?_, getKey_insertKey fields args.property_name _⟩
  rw [to_json, to_json_arms_get args.property_name args.variants i variant v hvar]
  simp [to_json_arm, hobj]

/-- C2 witness: encoding the scenario's circle yields an object whose
`"type"` property is the implicit tag. -/
theorem discriminator_presence_witness :
    ∃ out, to_json argsA (0, Json.obj [("radius", Json.num 2)]) = .obj out ∧
      getKey out "type" = some (.str ("CircleData")) :=
  discriminator_presence argsA 0 circleItem (Json.obj [("radius", Json.num 2)])
    [("radius", Json.num 2)] rfl rfl

/-- C2 counterexample: the claim quantifies over every union value, but when
the payload encoder yields a non-object the generated encoder emits it
unchanged, so the encoded JSON is not even an object and carries no
discriminator property. -/
theorem discriminator_presence_counterexample :
    to_json argsStr (0, Json.null) = Json.str ("x") ∧
    ∀ out, to_json argsStr (0, Json.null) ≠ Json.obj out :=
  ⟨rfl, fun _ h => Json.noConfusion h⟩

/-- C9: when the active case's payload encoder returns a JSON value that is
not an object, `to_json` returns that payload JSON unchanged — no
discriminator property is inserted. -/
theorem encode_non_object_passthrough (args : OneOfArgs α) (i : Nat)
    (variant : OneOfItem α) (v : α)
    (hvar : args.variants[i]? = some variant)
    (hobj : (variant.payload.to_json v).asObject = none) :
    to_json args (i, v) = variant.payload.to_json v := by
  rw [to_json, to_json_arms_get args.property_name args.variants i variant v hvar]
  simp [to_json_arm, hobj]

/-- C9 witness: the string-encoding payload passes through untouched. -/
theorem encode_non_object_passthrough_witness :
    to_json argsStr (0, Json.null) = strPayload.to_json Json.null :=
  encode_non_object_passthrough argsStr 0 strItem Json.null rfl rfl

/-- C3: `parse_from_json` fails with `ParseError::expected_type` on the
input value exactly when the input is not a JSON object, or the object
lacks the discriminator property, or the discriminator value equals no
case's resolved tag (serde's `Value == &str` comparison); in every other
situation it delegates to some case's payload decoder on the whole input. -/
theorem decode_expected_type_conditions (args : OneOfArgs α) (value : Json) :
    (value.asObject = none →
      parse_from_json args value = .error (.expectedType value)) ∧
    (∀ fields, value.asObject = some fields →
      getKey fields args.property_name = none →
      parse_from_json args value = .error (.expectedType value)) ∧
    (∀ fields pv, value.asObject = some fields →
      getKey fields args.property_name = some pv →
      (∀ variant ∈ args.variants, matchesTag pv (mapping_name variant) = false) →
      parse_from_json args value = .error (.expectedType value)) ∧
    (∀ fields pv, value.asObject = some fields →
      getKey fields args.property_name = some pv →
      (∃ variant ∈ args.variants, matchesTag pv (mapping_name variant) = true) →
      ∃ (i : Nat) (variant : OneOfItem α), args.variants[i]? = some variant ∧
        parse_from_json args value =
          ((variant.payload.parse_from_json value).map
            (fun x => (i, x))).mapError ParseError.propagate) := by
  refine ⟨?_, ?_, ?_, ?_⟩
  · intro h
    rw [parse_from_json, h]
    rfl
  · intro fields h1 h2
    rw [parse_from_json, h1]
    simp only [Option.some_bind]
    rw [h2]
  · intro fields pv h1 h2 hnone
    rw [parse_from_json, h1]
    simp only [Option.some_bind]
    rw [h2]
    exact from_json_arms_nomatch args.variants 0 pv value hnone
  · intro fields pv h1 h2 hsome
    obtain ⟨i, variant, hget, heq⟩ :=
      from_json_arms_delegates args.variants 0 pv value hsome
    refine ⟨i, variant, hget, ?_⟩
    rw [parse_from_json, h1]
    simp only [Option.some_bind]
    rw [h2]
    simpa using heq

/-- C3 at concrete inputs: a non-object, an object without the
discriminator, and an unknown tag each fail with `expected_type`. -/
theorem decode_expected_type_witness :
    parse_from_json argsA (Json.str ("zz")) =
      .error (.expectedType (Json.str ("zz"))) ∧
    parse_from_json argsA (Json.obj [("side", Json.num 3)]) =
      .error (.expectedType (Json.obj [("side", Json.num 3)])) ∧
    parse_from_json argsA (Json.obj [("type", Json.str ("triangle"))]) =
      .error (.expectedType (Json.obj [("type", Json.str ("triangle"))])) :=
  ⟨(decode_expected_type_conditions argsA (Json.str ("zz"))).1 rfl,
   (decode_expected_type_conditions argsA
      (Json.obj [("side", Json.num 3)])).2.1 [("side", Json.num 3)] rfl rfl,
   (decode_expected_type_conditions argsA
      (Json.obj [("type", Json.str ("triangle"))])).2.2.1
      [("type", Json.str ("triangle"))] (Json.str ("triangle")) rfl rfl
      (by intro variant hv
          have hm : variant = circleItem ∨ variant = squareItem := by
            simpa [argsA] using hv
          rcases hm with rfl | rfl <;> rfl)⟩

/-- C4: on a JSON object whose discriminator value matches the resolved tag
of case `i` and of no earlier case, `parse_from_json` delegates the entire
original input value — the discriminator property still present — to case
`i`'s payload decoder, wrapping a successful result in constructor `i`. -/
theorem decode_first_match_delegation (args : OneOfArgs α) (value : Json)
    (fields : List (String × Json)) (pv : Json) (i : Nat)
    (variant : OneOfItem α)
    (hobj : value.asObject = some fields)
    (hget : getKey fields args.property_name = some pv)
    (hvar : args.variants[i]? = some variant)
    (hmatch : matchesTag pv (mapping_name variant) = true)
    (hfirst : ∀ j vj, j < i → args.variants[j]? = some vj →
      matchesTag pv (mapping_name vj) = false) :
    parse_from_json args value =
      ((variant.payload.parse_from_json value).map
        (fun x => (i, x))).mapError ParseError.propagate := by
  rw [parse_from_json, hobj]
  simp only [Option.some_bind]
  rw [hget]
  simpa using
    from_json_arms_first args.variants 0 i variant pv value hvar hmatch hfirst

/-- C4 witness: decoding the scenario's square object delegates the whole
input, `"type"` included, to the square payload's decoder and wraps the
result in the second constructor. -/
theorem decode_first_match_delegation_witness :
    parse_from_json argsA
        (Json.obj [("type", Json.str ("sq")), ("side", Json.num 3)]) =
      ((squareItem.payload.parse_from_json
          (Json.obj [("type", Json.str ("sq")), ("side", Json.num 3)])).map
        (fun x => (1, x))).mapError ParseError.propagate :=
  decode_first_match_delegation argsA
    (Json.obj [("type", Json.str ("sq")), ("side", Json.num 3)])
    [("type", Json.str ("sq")), ("side", Json.num 3)] (Json.str ("sq")) 1
    squareItem rfl rfl rfl rfl
    (fun j vj hj hv => by
      obtain rfl : j = 0 := Nat.lt_one_iff.mp hj
      obtain rfl : circleItem = vj := Option.some.inj hv
      rfl)

/-- C1 (amended): a union value round-trips through encode then decode
provided the active case's payload encoder yields a JSON object, the
payload decoder maps that object with the discriminator property inserted
back to the payload value, and no earlier-declared case shares the resolved
tag. -/
theorem oneof_round_trip (args : OneOfArgs α) (i : Nat)
    (variant : OneOfItem α) (v : α) (fields : List (String × Json))
    (hvar : args.variants[i]? = some variant)
    (hobj : (variant.payload.to_json v).asObject = some fields)
    (hdec : variant.payload.parse_from_json
      (.obj (insertKey fields args.property_name
        (.str (mapping_name variant)))) = .ok v)
    (hfirst : ∀ j vj, j < i → args.variants[j]? = some vj →
      mapping_name vj ≠ mapping_name variant) :
    parse_from_json args (to_json args (i, v)) = .ok (i, v) := by
  have henc : to_json args (i, v) =
      .obj (insertKey fields args.property_name
        (.str (mapping_name variant))) := by
    rw [to_json, to_json_arms_get args.property_name args.variants i variant v hvar]
    simp [to_json_arm, hobj]
  rw [henc, parse_from_json]
  simp only [Json.asObject, Option.some_bind]
  rw [getKey_insertKey]
  show from_json_arms args.variants 0 (Json.str (mapping_name variant))
    (Json.obj (insertKey fields args.property_name
      (Json.str (mapping_name variant)))) = Except.ok (i, v)
  rw [from_json_arms_first args.variants 0 i variant
    (.str (mapping_name variant)) _ hvar (by simp [matchesTag])
    (fun j vj hj hv =>
      decide_eq_false (fun h => hfirst j vj hj hv h.symm))]
  rw [hdec]
  simp [mapError_propagate, Except.map]

/-- C1 witness: the scenario's square value round-trips. -/
theorem oneof_round_trip_witness :
    parse_from_json argsA (to_json argsA (1, Json.obj [("side", Json.num 3)])) =
      .ok (1, Json.obj [("side", Json.num 3)]) :=
  oneof_round_trip argsA 1 squareItem (Json.obj [("side", Json.num 3)])
    [("side", Json.num 3)] rfl rfl rfl
    (fun j vj hj hv => by
      obtain rfl : j = 0 := Nat.lt_one_iff.mp hj
      obtain rfl : circleItem = vj := Option.some.inj hv
      decide)

/-- C1 counterexample: the claim as stated fails. The one-case union over
`strPayload` has a payload type that round-trips through JSON at the
payload value `null`, yet decoding the encoding of the union value ends in
`expected_type`, not `Ok`: the payload encodes to the non-object `"x"`, so
the encoder emits `"x"` untagged and the decoder rejects it. -/
theorem oneof_round_trip_counterexample :
    strPayload.parse_from_json (strPayload.to_json Json.null) = .ok Json.null ∧
    parse_from_json argsStr (to_json argsStr (0, Json.null)) =
      .error (.expectedType (Json.str ("x"))) ∧
    parse_from_json argsStr (to_json argsStr (0, Json.null)) ≠
      .ok ((0, Json.null) : UnionValue Json) :=
  ⟨rfl, rfl, fun h => Except.noConfusion h⟩

theorem mapping_entries_explicit_ref (variants : List (OneOfItem α))
    (entries : List (String × String))
    (h : mapping_entries variants = some entries) :
    ∀ variant ∈ variants, variant.mapping.isSome = true →
      ∃ reference, variant.payload.schema_ref = .Reference reference := by
  intro variant hmem hexp
  rcases hr : variant.payload.schema_ref with reference | schema
  · exact ⟨reference, rfl⟩
  · rw [mapping_entries_none variants variant hmem hexp
      (by rw [hr]; rfl)] at h
    exact Option.noConfusion h

/-- C6: when the schema is constructed at all, `discriminator.mapping` holds
exactly one entry per explicit-tag case, in declaration order — the case's
resolved tag paired with `"#/components/schemas/"` followed by the payload's
schema reference name — and implicit-tag cases contribute nothing; moreover
every explicit-tag case's payload schema is then a named reference. -/
theorem mapping_explicit_only (args : OneOfArgs α) (s : MetaSchema)
    (hs : oneof_schema args = some s) :
    s.discriminator =
      some { property_name := args.property_name,
             mapping := args.variants.filterMap mapping_entry } ∧
    ∀ variant ∈ args.variants, variant.mapping.isSome = true →
      ∃ reference, variant.payload.schema_ref = .Reference reference := by
  obtain ⟨mapping, hmap, rfl⟩ := Option.map_eq_some'.mp hs
  exact ⟨by simp [MetaSchema.discriminator,
      mapping_entries_eq args.variants mapping hmap],
    mapping_entries_explicit_ref args.variants mapping hmap⟩

/-- C6 witness: the scenario's mapping holds only the explicit `"sq"`
entry, referencing the square payload's schema component. -/
theorem mapping_explicit_only_witness :
    exSchemaA.discriminator =
      some { property_name := "type",
             mapping := [("sq", "#/components/schemas/SquareData")] } ∧
    ∀ variant ∈ argsA.variants, variant.mapping.isSome = true →
      ∃ reference, variant.payload.schema_ref = .Reference reference :=
  mapping_explicit_only argsA exSchemaA rfl

/-- C7: the emitted schema's `oneOf` is each case's payload `schema_ref()`
in declaration order, and the discriminator property is a string schema
whose enum is the declaration-order sequence of resolved tags — a plain
`map`, so duplicate tags are preserved, not deduplicated. -/
theorem schema_one_of_and_enum_order (args : OneOfArgs α) (s : MetaSchema)
    (hs : oneof_schema args = some s) :
    s.one_of = args.variants.map (fun variant => variant.payload.schema_ref) ∧
    s.properties = [(args.property_name,
      .Inline (.mk ("string") none none none [] []
        (args.variants.map (fun variant => Json.str (mapping_name variant)))
        none))] := by
  obtain ⟨mapping, hmap, rfl⟩ := Option.map_eq_some'.mp hs
  exact ⟨rfl, by simp [MetaSchema.properties, names, List.map_map, Function.comp]⟩

/-- C7 witness: a union declaring the same explicit tag twice keeps both
enum entries, in declaration order. -/
theorem schema_enum_duplicates_witness :
    exSchemaDup.one_of =
      [MetaSchemaRef.Reference ("AData"), MetaSchemaRef.Reference ("BData")] ∧
    exSchemaDup.properties = [("type",
      .Inline (.mk ("string") none none none [] []
        [Json.str ("T"), Json.str ("T")] none))] :=
  schema_one_of_and_enum_order argsDup exSchemaDup rfl

/-- C8: `register` on the derived union is exactly the declaration-order
composition of the payload types' `register` calls; a name whose membership
no payload's `register` changes — in particular the union's own name, which
no generated code touches — is in the output registry exactly when it was in
the input. -/
theorem register_delegates_in_order (args : OneOfArgs α) (registry : Registry) :
    register args registry =
      List.foldl (fun registry f => f registry) registry
        (args.variants.map (fun variant => variant.payload.register)) ∧
    ∀ n : String,
      (∀ variant ∈ args.variants, ∀ r : Registry,
        (n ∈ variant.payload.register r ↔ n ∈ r)) →
      (n ∈ register args registry ↔ n ∈ registry) :=
  ⟨register_foldl_map args.variants registry,
   fun n h => register_frame args.variants registry n h⟩

/-- C8 witness: registering the scenario union registers the two payload
schema names in declaration order and nothing else; the one-variant wrapper
union, whose payload registers nothing, never registers the union's own
name. -/
theorem register_delegates_witness :
    register argsA [] = ["SquareData", "CircleData"] ∧
    ("Wrap" ∈ register argsStr [] ↔ "Wrap" ∈ ([] : Registry)) :=
  ⟨rfl,
   (register_delegates_in_order argsStr []).2 ("Wrap")
     (by intro variant hv r
         have hm : variant = strItem := by simpa [argsStr] using hv
         subst hm
         exact Iff.rfl)⟩

/-- C10: the derived union's `name()` is the constant `"object"` and its
`schema_ref()`, when it is constructed at all, is an inline schema on which
`unwrap_reference` fails; consequently any union with an explicit-tag case
whose payload has only an inline schema — such as a nested derived union —
cannot build its mapping, and its `schema_ref()` aborts. -/
theorem union_name_inline_schema (args : OneOfArgs α) :
    type_name args = "object" ∧
    (∀ r, schema_ref args = some r →
      (∃ s, r = .Inline s) ∧ r.unwrap_reference = none) ∧
    (∀ (β : Type) (outer : OneOfArgs β) (variant : OneOfItem β),
      variant ∈ outer.variants → variant.mapping.isSome = true →
      variant.payload.schema_ref.unwrap_reference = none →
      schema_ref outer = none) := by
  refine ⟨rfl, ?_, ?_⟩
  · intro r hr
    obtain ⟨s, _, rfl⟩ := Option.map_eq_some'.mp hr
    exact ⟨⟨s, rfl⟩, rfl⟩
  · intro β outer variant hmem hexp hinline
    rw [schema_ref, oneof_schema,
      mapping_entries_none outer.variants variant hmem hexp hinline]
    rfl

/-- C10 witness: nesting the scenario union as the explicit-tag payload of
an outer union leaves the outer union without a schema — the inner union's
`schema_ref()` is inline, so the outer mapping reference cannot be formed. -/
theorem union_name_inline_schema_witness :
    type_name argsA = "object" ∧
    schema_ref argsA = some (.Inline exSchemaA) ∧
    MetaSchemaRef.unwrap_reference (.Inline exSchemaA) = none ∧
    schema_ref { ident := "Outer", title := none, description := none,
                 property_name := "kind", external_docs := none,
                 variants := [{ ident := "Inner",
                                payload := unionPayloadOf argsA (.Inline exSchemaA),
                                mapping := some ("inner") }] } = none :=
  ⟨(union_name_inline_schema argsA).1, rfl, rfl,
   (union_name_inline_schema argsA).2.2 (UnionValue Json)
     { ident := "Outer", title := none, description := none,
       property_name := "kind", external_docs := none,
       variants := [{ ident := "Inner",
                      payload := unionPayloadOf argsA (.Inline exSchemaA),
                      mapping := some ("inner") }] }
     { ident := "Inner", payload := unionPayloadOf argsA (.Inline exSchemaA),
       mapping := some ("inner") }
     (List.mem_singleton.mpr rfl) rfl rfl⟩

end OneOf
